import Mathlib

/-!
Shallow embedding of the interpreter-process supervisor and code-block
dispatch logic of the supercollider-vscode extension (client side,
`extension.ts`): the Block Locator (`findCodeBlock`, `executeBlockCommand`)
and the Interpreter Supervisor (`startSclang`, `stopSclang`, `executeCode`,
`sendCode`, the spawn error/exit observers, and the convenience wrappers).

Pure scanning code becomes Lean functions on `List Char`; the stateful
supervisor becomes explicit state passing over an `SCState` record, with the
asynchronous process observers modelled as separate event-handler functions
on that state.
-/

namespace SCVSCode

/-! ## Block Locator -/

/--
Backward scan of `findCodeBlock`:

    for (let i = offset; i >= 0; i--) {
      const char = text[i];
      if (char === ')') { depth++; }
      else if (char === '(') {
        if (depth === 0) { startOffset = i; break; }
        depth--;
      }
    }

`text[i]` for an index past the end is `undefined` in the source, matching
neither `')'` nor `'('`; here `text[i]?` returns `none` in that case and the
scan likewise skips it.  Returns `some startOffset` when the loop breaks,
`none` when the loop runs out (startOffset stays `-1`).
-/
def searchBack (text : List Char) : Int → Nat → Option Nat
  | depth, 0 =>
    match text[0]? with
    | some c =>
      if c = ')' then none
      else if c = '(' then (if depth = 0 then some 0 else none)
      else none
    | none => none
  | depth, i + 1 =>
    match text[i + 1]? with
    | some c =>
      if c = ')' then searchBack text (depth + 1) i
      else if c = '(' then
        (if depth = 0 then some (i + 1) else searchBack text (depth - 1) i)
      else searchBack text depth i
    | none => searchBack text depth i

/--
Forward scan of `findCodeBlock`, over the remaining characters of the
document (`rest = text.drop i`, with `i` the absolute index of the head):

    for (let i = startOffset; i < text.length; i++) {
      const char = text[i];
      if (char === '(') { depth++; }
      else if (char === ')') {
        depth--;
        if (depth === 0) { endOffset = i + 1; break; }
      }
    }

Returns `some endOffset` when the loop breaks, `none` otherwise
(endOffset stays `-1`).
-/
def searchForwardAux : List Char → Int → Nat → Option Nat
  | [], _, _ => none
  | c :: rest, depth, i =>
    if c = '(' then searchForwardAux rest (depth + 1) (i + 1)
    else if c = ')' then
      (if depth - 1 = 0 then some (i + 1) else searchForwardAux rest (depth - 1) (i + 1))
    else searchForwardAux rest depth (i + 1)

/-- The forward scan entered at absolute index `i` of the document text. -/
def searchForward (text : List Char) (depth : Int) (i : Nat) : Option Nat :=
  searchForwardAux (text.drop i) depth i

/-- `text.substring(startOffset, endOffset)` on the character list. -/
def slice (text : List Char) (s e : Nat) : List Char :=
  (text.drop s).take (e - s)

/-- JS `String.prototype.trim()`: strip leading and trailing whitespace.
Implemented over the character list so that concrete runs reduce inside the
kernel (`String.trim` does not). -/
def jsTrim (s : String) : String :=
  String.mk (((s.data.dropWhile Char.isWhitespace).reverse.dropWhile
    Char.isWhitespace).reverse)

/--
`findCodeBlock(document, position)`: look for an enclosing parenthesis pair
around the cursor offset (backward scan for the block start, then forward
scan for the block end); if `startOffset >= 0 && endOffset > startOffset`
return `text.substring(startOffset, endOffset)`, otherwise return the
current line's text **trimmed** (`line.text.trim()`).

Inputs are the document text, the cursor offset (`document.offsetAt`), and
the text of the line containing the cursor (`document.lineAt`).
-/
def findCodeBlock (text : List Char) (offset : Nat) (lineText : String) : String :=
  match searchBack text 0 offset with
  | some startOffset =>
    match searchForward text 0 startOffset with
    | some endOffset =>
      if startOffset < endOffset then String.mk (slice text startOffset endOffset)
      else jsTrim lineText
    | none => jsTrim lineText
  | none => jsTrim lineText

/--
The fragment-selection logic of `executeBlockCommand`:

    if (!selection.isEmpty) { code = document.getText(selection); }
    else {
      const blockCode = findCodeBlock(document, selection.active);
      if (blockCode) { code = blockCode; }
      else { code = document.lineAt(selection.active.line).text; }
    }

`blockCode` is a string; it is falsy exactly when it is empty.
-/
def chooseFragment (selNonEmpty : Bool) (selText : String)
    (text : List Char) (offset : Nat) (lineText : String) : String :=
  if selNonEmpty then selText
  else
    let blockCode := findCodeBlock text offset lineText
    if blockCode = "" then lineText else blockCode

/-- A character list containing no parenthesis characters. -/
def parenFree (l : List Char) : Prop :=
  ∀ ch ∈ l, ch ≠ '(' ∧ ch ≠ ')'

instance (l : List Char) : Decidable (parenFree l) := by
  unfold parenFree; infer_instance

/-- Parenthesis balance of a fragment: occurrences of open minus close. -/
def bal (l : List Char) : Int :=
  (l.count '(' : Int) - (l.count ')' : Int)

/-! ## Interpreter Supervisor -/

/--
The child process handle (`ChildProcess`): the executable path it was
spawned with, its `killed` flag, and whether its `stdin` stream is present
(always true for processes spawned here, which use piped stdio).
-/
structure Proc where
  path : String
  killed : Bool
  stdin : Bool
deriving DecidableEq

/--
The host environment read by the supervisor: `process.platform`, the
`supercollider.sclangPath` configuration value (absent or empty is falsy),
and whether the `spawn` call throws synchronously (the `catch` path of
`startSclang`).
-/
structure Env where
  platform : String
  configPath : Option String
  spawnThrows : Bool
deriving DecidableEq

/--
The module-level mutable state together with the observable effect log:
the shared handle `sclangProcess`, the two output channels (`sclangOutput`
lifecycle lines, `postWindowOutput` chunks), the payloads written to the
child's stdin, the `window.showErrorMessage` notifications, the number of
`kill()` signals sent, the pending `setTimeout` sends (delay ms, code), and
the number of `spawn` calls made.
-/
structure SCState where
  sclangProcess : Option Proc
  sclangOutput : List String
  postWindow : List String
  stdinWrites : List String
  errorMessages : List String
  killSignals : Nat
  pendingTimers : List (Nat × String)
  spawnCount : Nat
deriving DecidableEq

/-- The state at extension activation: no process, empty transcripts. -/
def initState : SCState :=
  { sclangProcess := none, sclangOutput := [], postWindow := [], stdinWrites := [],
    errorMessages := [], killSignals := 0, pendingTimers := [], spawnCount := 0 }

/-- `sclangProcess && !sclangProcess.killed`: a live handle exists. -/
def liveHandle (s : SCState) : Bool :=
  match s.sclangProcess with
  | some p => !p.killed
  | none => false

/-- `sclangOutput.appendLine(line)`. -/
def appendLog (s : SCState) (line : String) : SCState :=
  { s with sclangOutput := s.sclangOutput ++ [line] }

/-- `config.get<string>('sclangPath') || 'sclang'` (falsy on absent/empty). -/
def getSclangPath (env : Env) : String :=
  match env.configPath with
  | some p => if p = "" then "sclang" else p
  | none => "sclang"

/-- `spawn(path, ['-i', 'vscode'], ...)` succeeding: a fresh live handle with
piped stdio is assigned to `sclangProcess`. -/
def spawnProc (s : SCState) (path : String) : SCState :=
  { s with sclangProcess := some { path := path, killed := false, stdin := true },
           spawnCount := s.spawnCount + 1 }

set_option linter.unusedVariables false in
/--
`startSclang(fallbackToExe = true)` up to its synchronous return: if a live
handle exists, log `already running` and return `true` without spawning;
otherwise resolve the path, log the start line, spawn (assigning the
handle, logging the `spawned, waiting for output` line and returning
`true`), or — if `spawn` throws synchronously — log the failure, surface an
error message and return `false` with no handle assigned.
(`fallbackToExe` is only captured by the error observer, `onError` below.)
-/
def startSclang (env : Env) (fallbackToExe : Bool) (s : SCState) : Bool × SCState :=
  if liveHandle s then
    (true, appendLog s "[SuperCollider] sclang already running")
  else
    let sclangPath := getSclangPath env
    let s1 := appendLog s ("[SuperCollider] Starting sclang: " ++ sclangPath)
    if env.spawnThrows then
      let s2 := appendLog s1 "[SuperCollider] Failed to start sclang: spawn threw"
      let notif :=
        "Failed to start sclang. Make sure SuperCollider is installed and sclangPath is configured."
      (false, { s2 with errorMessages := s2.errorMessages ++ [notif] })
    else
      let s2 := spawnProc s1 sclangPath
      (true, appendLog s2 "[SuperCollider] sclang process spawned, waiting for output...")

/--
`stopSclang()`: if a live handle exists, log, send `kill()`, clear the
handle and log again; otherwise do nothing.  (Note `fallbackToExe` plays no
role here and pending timers are not touched.)
-/
def stopSclang (s : SCState) : SCState :=
  match s.sclangProcess with
  | some p =>
    if !p.killed then
      let s1 := appendLog s "[SuperCollider] Stopping sclang..."
      let s2 := { s1 with killSignals := s1.killSignals + 1, sclangProcess := none }
      appendLog s2 "[SuperCollider] sclang stopped"
    else s
  | none => s

/-- The single control byte appended to every dispatched payload: `'\x1b'`. -/
def escStr : String := "\x1b"

/-- The dispatch-echo line:
`` `\n-> ${cleanCode.split('\n')[0]}${cleanCode.includes('\n') ? '...' : ''}` ``. -/
def echoLine (cleanCode : String) : String :=
  "\n-> " ++ cleanCode.takeWhile (fun c => c ≠ '\n')
    ++ (if cleanCode.contains '\n' then "..." else "")

/--
`sendCode(code)`: error notification if there is no handle or no stdin
stream; otherwise trim the code, silently drop it if empty, else append the
dispatch-echo line to the post window and write `cleanCode + '\x1b'` to the
child's stdin.
-/
def sendCode (code : String) (s : SCState) : SCState :=
  match s.sclangProcess with
  | none => { s with errorMessages := s.errorMessages ++ ["sclang is not running"] }
  | some p =>
    if !p.stdin then
      { s with errorMessages := s.errorMessages ++ ["sclang is not running"] }
    else
      let cleanCode := jsTrim code
      if cleanCode = "" then s
      else
        { s with postWindow := s.postWindow ++ [echoLine cleanCode],
                 stdinWrites := s.stdinWrites ++ [cleanCode ++ escStr] }

/--
`executeCode(code)`: if no live handle, `startSclang()` (returning early on
synchronous failure) and schedule `sendCode(code)` after a 1000 ms
`setTimeout`; otherwise send immediately.
-/
def executeCode (env : Env) (code : String) (s : SCState) : SCState :=
  if liveHandle s then sendCode code s
  else
    let r := startSclang env true s
    if r.1 then
      { r.2 with pendingTimers := r.2.pendingTimers ++ [(1000, code)] }
    else r.2

/-- A scheduled `setTimeout` callback firing: the first pending timer is
removed and its `sendCode(code)` runs against the then-current state. -/
def fireTimer (s : SCState) : SCState :=
  match s.pendingTimers with
  | [] => s
  | (_, code) :: rest => sendCode code { s with pendingTimers := rest }

/--
The `proc.on('error', ...)` observer of a spawn attempt made with path
`attemptPath` under `fallbackToExe`: log the error line; if the attempt was
the literal `sclang`, fallback is allowed and the platform is linux or
win32, log the fallback line and re-spawn once with `sclang.exe`
(reassigning the handle); otherwise surface the failure and clear the
handle.  The source checks nothing about the kind of spawn error.
-/
def onError (env : Env) (fallbackToExe : Bool) (attemptPath : String)
    (errMessage : String) (s : SCState) : SCState :=
  let s1 := appendLog s
    ("[SuperCollider] Error spawning " ++ attemptPath ++ ": " ++ errMessage)
  if attemptPath = "sclang" ∧ fallbackToExe = true ∧
      (env.platform = "linux" ∨ env.platform = "win32") then
    let s2 := appendLog s1 "[SuperCollider] Attempting fallback to sclang.exe..."
    spawnProc s2 "sclang.exe"
  else
    let notif := "Failed to start sclang (" ++ attemptPath ++ "): " ++ errMessage
      ++ ". Check supercollider.sclangPath setting."
    { s1 with errorMessages := s1.errorMessages ++ [notif], sclangProcess := none }

/-- The `proc.on('exit', code)` observer: log the exit and clear the handle. -/
def onExit (code : Int) (s : SCState) : SCState :=
  { appendLog s ("[SuperCollider] sclang exited with code " ++ toString code) with
      sclangProcess := none }

/-- The `proc.stdout.on('data')` / `proc.stderr.on('data')` observers:
append the chunk to the post window. -/
def onData (data : String) (s : SCState) : SCState :=
  { s with postWindow := s.postWindow ++ [data] }

/-- `bootServer()`. -/
def bootServer (env : Env) (s : SCState) : SCState := executeCode env "s.boot;" s

/-- `rebootServer()`. -/
def rebootServer (env : Env) (s : SCState) : SCState := executeCode env "s.reboot;" s

/-- `killServer()`. -/
def killServer (env : Env) (s : SCState) : SCState := executeCode env "s.quit;" s

/-- `stopAllSounds()`. -/
def stopAllSounds (env : Env) (s : SCState) : SCState := executeCode env "CmdPeriod.run;" s

/-- A Linux host with no configured path and a spawn that does not throw
synchronously. -/
def linuxEnv : Env := { platform := "linux", configPath := none, spawnThrows := false }

/-- A macOS host (`process.platform === 'darwin'`), otherwise like
`linuxEnv`: a host outside the fallback's linux/win32 allowance. -/
def darwinEnv : Env := { platform := "darwin", configPath := none, spawnThrows := false }

/-- A live handle as produced by a successful default spawn. -/
def runningProc : Proc := { path := "sclang", killed := false, stdin := true }

/-- A state with a live default process and otherwise fresh transcripts. -/
def runningState : SCState := { initState with sclangProcess := some runningProc }

/-! ## Helper lemmas about the scanners -/

theorem bal_cons_open (l : List Char) : bal ('(' :: l) = bal l + 1 := by
  simp [bal, List.count_cons]; omega

theorem bal_cons_close (l : List Char) : bal (')' :: l) = bal l - 1 := by
  simp [bal, List.count_cons]; omega

theorem bal_cons_other (c : Char) (l : List Char) (h1 : c ≠ '(') (h2 : c ≠ ')') :
    bal (c :: l) = bal l := by
  simp [bal, List.count_cons, h1, h2]

/--
Soundness of the forward scan: when it reports an end offset `en`, the scan
consumed `en - i` characters, the last of them is the closing `')'`, and the
parenthesis balance of the consumed segment cancels the entry depth.
-/
theorem searchForwardAux_spec (l : List Char) :
    ∀ (depth : Int) (i en : Nat), searchForwardAux l depth i = some en →
      i < en ∧ (∃ pre, l.take (en - i) = pre ++ [')']) ∧
        depth + bal (l.take (en - i)) = 0 := by
  induction l with
  | nil => intro depth i en h; simp [searchForwardAux] at h
  | cons c rest ih =>
    intro depth i en h
    simp only [searchForwardAux] at h
    by_cases hc1 : c = '('
    · rw [if_pos hc1] at h
      obtain ⟨h1, ⟨pre, h2⟩, h3⟩ := ih (depth + 1) (i + 1) en h
      have hk : en - i = (en - (i + 1)) + 1 := by omega
      subst hc1
      refine ⟨by omega, ⟨'(' :: pre, ?_⟩, ?_⟩
      · rw [hk, List.take_succ_cons, h2]; rfl
      · rw [hk, List.take_succ_cons, bal_cons_open]; omega
    · rw [if_neg hc1] at h
      by_cases hc2 : c = ')'
      · rw [if_pos hc2] at h
        subst hc2
        by_cases hd : depth - 1 = 0
        · rw [if_pos hd] at h
          obtain rfl : en = i + 1 := (Option.some.inj h).symm
          have hk : i + 1 - i = 1 := by omega
          refine ⟨by omega, ⟨[], ?_⟩, ?_⟩
          · rw [hk, List.take_succ_cons, List.take_zero]; rfl
          · rw [hk, List.take_succ_cons, List.take_zero, bal_cons_close]
            simp [bal]; omega
        · rw [if_neg hd] at h
          obtain ⟨h1, ⟨pre, h2⟩, h3⟩ := ih (depth - 1) (i + 1) en h
          have hk : en - i = (en - (i + 1)) + 1 := by omega
          refine ⟨by omega, ⟨')' :: pre, ?_⟩, ?_⟩
          · rw [hk, List.take_succ_cons, h2]; rfl
          · rw [hk, List.take_succ_cons, bal_cons_close]; omega
      · rw [if_neg hc2] at h
        obtain ⟨h1, ⟨pre, h2⟩, h3⟩ := ih depth (i + 1) en h
        have hk : en - i = (en - (i + 1)) + 1 := by omega
        refine ⟨by omega, ⟨c :: pre, ?_⟩, ?_⟩
        · rw [hk, List.take_succ_cons, h2]; rfl
        · rw [hk, List.take_succ_cons, bal_cons_other c _ hc1 hc2]; omega

/-- Soundness of the backward scan: a reported start offset points at `'('`. -/
theorem searchBack_spec (text : List Char) :
    ∀ (i : Nat) (depth : Int) (st : Nat), searchBack text depth i = some st →
      text[st]? = some '(' := by
  intro i
  induction i with
  | zero =>
    intro depth st h
    simp only [searchBack] at h
    split at h
    · split at h
      · exact absurd h (by simp)
      · split at h
        · split at h
          · obtain rfl : st = 0 := (Option.some.inj h).symm
            simp_all
          · exact absurd h (by simp)
        · exact absurd h (by simp)
    · exact absurd h (by simp)
  | succ n ih =>
    intro depth st h
    simp only [searchBack] at h
    split at h
    · split at h
      · exact ih _ _ h
      · split at h
        · split at h
          · obtain rfl : st = n + 1 := (Option.some.inj h).symm
            simp_all
          · exact ih _ _ h
        · exact ih _ _ h
    · exact ih _ _ h

/-- The backward scan at depth 0 stops immediately on an opening paren. -/
theorem searchBack_at_open (text : List Char) (i : Nat) (h : text[i]? = some '(') :
    searchBack text 0 i = some i := by
  cases i with
  | zero => simp only [searchBack]; rw [h]; simp
  | succ n => simp only [searchBack]; rw [h]; simp

/-- The backward scan skips a run of non-parenthesis characters. -/
theorem searchBack_skip (text : List Char) (m : Nat) :
    ∀ (j : Nat) (depth : Int),
      (∀ k, k ≤ j → ∃ ch, text[m + 1 + k]? = some ch ∧ ch ≠ '(' ∧ ch ≠ ')') →
      searchBack text depth (m + 1 + j) = searchBack text depth m := by
  intro j
  induction j with
  | zero =>
    intro depth hk
    obtain ⟨ch, hch, h1, h2⟩ := hk 0 (Nat.le_refl 0)
    have e1 : m + 1 + 0 = m + 1 := by omega
    rw [e1] at hch ⊢
    simp only [searchBack]
    rw [hch]
    simp [h1, h2]
  | succ n ihn =>
    intro depth hk
    obtain ⟨ch, hch, h1, h2⟩ := hk (n + 1) (Nat.le_refl _)
    have e1 : m + 1 + (n + 1) = (m + 1 + n) + 1 := by omega
    rw [e1] at hch ⊢
    simp only [searchBack]
    rw [hch]
    simp only [h1, h2, if_false, if_neg h1, if_neg h2]
    exact ihn depth (fun k hkn => hk k (by omega))

/-- The forward scan skips a run of non-parenthesis characters. -/
theorem searchForwardAux_skip (c : List Char) (hpf : parenFree c) :
    ∀ (rest : List Char) (depth : Int) (i : Nat),
      searchForwardAux (c ++ rest) depth i = searchForwardAux rest depth (i + c.length) := by
  induction c with
  | nil => intro rest depth i; simp
  | cons ch tail ih =>
    intro rest depth i
    obtain ⟨h1, h2⟩ := hpf ch (by simp)
    have htail : parenFree tail := fun x hx => hpf x (by simp [hx])
    simp only [List.cons_append, searchForwardAux, if_neg h1, if_neg h2, List.append_eq]
    rw [ih htail rest depth (i + 1)]
    congr 1
    simp [List.length_cons]
    omega

/-! ## Block Locator theorems -/

/--
Claim C10: whenever the Block Locator's parenthesis scan succeeds (an
unmatched `(` is found backward from the cursor and a matching close is
found forward), the returned fragment always begins with `(`, ends with
`)`, and contains equally many `(` and `)` characters.
-/
theorem findCodeBlock_scan_balanced (text : List Char) (offset st en : Nat)
    (lineText : String)
    (hb : searchBack text 0 offset = some st)
    (hf : searchForward text 0 st = some en) :
    findCodeBlock text offset lineText = String.mk (slice text st en) ∧
    (slice text st en).head? = some '(' ∧
    (slice text st en).getLast? = some ')' ∧
    (slice text st en).count '(' = (slice text st en).count ')' := by
  have hopen : text[st]? = some '(' := searchBack_spec text offset 0 st hb
  obtain ⟨hlt, ⟨pre, hpre⟩, hbal⟩ := searchForwardAux_spec (text.drop st) 0 st en hf
  have hfrag : slice text st en = (text.drop st).take (en - st) := rfl
  refine ⟨?_, ?_, ?_, ?_⟩
  · simp only [findCodeBlock, hb, hf]
    rw [if_pos hlt]
  · rw [hfrag]
    have h1 : (text.drop st).head? = some '(' := by rw [List.head?_drop]; exact hopen
    have hk : en - st = (en - st - 1) + 1 := by omega
    rw [hk]
    cases hdz : text.drop st with
    | nil => rw [hdz] at h1; simp at h1
    | cons x xs =>
      rw [hdz] at h1
      rw [List.take_succ_cons, List.head?_cons]
      rw [List.head?_cons] at h1
      exact h1
  · rw [hfrag, hpre]; simp
  · have hz : bal ((text.drop st).take (en - st)) = 0 := by omega
    rw [hfrag]
    unfold bal at hz
    omega

/-- Witness for C10 on the document `(a(b)c)` with the cursor at the `b`. -/
theorem findCodeBlock_scan_balanced_witness :
    findCodeBlock ("(a(b)c)".toList) 3 "ln" = String.mk (slice ("(a(b)c)".toList) 2 5) ∧
    (slice ("(a(b)c)".toList) 2 5).head? = some '(' ∧
    (slice ("(a(b)c)".toList) 2 5).getLast? = some ')' ∧
    (slice ("(a(b)c)".toList) 2 5).count '(' = (slice ("(a(b)c)".toList) 2 5).count ')' :=
  findCodeBlock_scan_balanced ("(a(b)c)".toList) 3 2 5 "ln" (by decide) (by decide)

/--
Claim C2, counterexample: in `((x))` with the cursor at the `x` (offset 2,
inside both pairs), the outermost enclosing pair's full text is `((x))`,
but `findCodeBlock` returns the innermost pair `(x)`.
-/
theorem findCodeBlock_outermost_counterexample :
    findCodeBlock ("((x))".toList) 2 "((x))" = "(x)" ∧ "(x)" ≠ "((x))" := by
  exact ⟨rfl, by decide⟩

/--
Claim C2, amended: for an empty selection with the cursor inside nested
balanced parentheses, the Block Locator returns the full text of the
**innermost** enclosing parenthesis pair (the backward scan stops at the
*nearest* unmatched `(`), including both parentheses.  Schema: in
`a ( b ( c ) d ) e` with the cursor strictly inside the paren-free inner
segment `c`, the returned fragment is exactly `(c)` — not the outer pair.
-/
theorem findCodeBlock_nested_innermost (a b cs d e : List Char) (j : Nat)
    (lineText : String) (hc : parenFree cs) (hj : j < cs.length) :
    findCodeBlock
        (a ++ ('(' :: (b ++ ('(' :: (cs ++ (')' :: (d ++ (')' :: e))))))))
        (a.length + 1 + b.length + 1 + j) lineText
      = String.mk ('(' :: (cs ++ [')'])) := by
  set w : List Char := d ++ (')' :: e) with hw
  set v : List Char := '(' :: (cs ++ (')' :: w)) with hv
  set u : List Char := a ++ ('(' :: b) with hu
  set m : Nat := a.length + 1 + b.length with hm
  have hul : u.length = m := by simp [hu, hm]; omega
  have htext :
      a ++ ('(' :: (b ++ ('(' :: (cs ++ (')' :: (d ++ (')' :: e))))))) = u ++ v := by
    simp [hu, hv, hw]
  rw [htext]
  have hdrop : (u ++ v).drop m = v := List.drop_left' hul
  have hget : ∀ n : Nat, (u ++ v)[m + n]? = v[n]? := by
    intro n
    rw [List.getElem?_append, if_neg (by omega : ¬ m + n < u.length), hul,
      show m + n - m = n from by omega]
  -- the backward scan skips the paren-free prefix of `cs` and stops at the
  -- inner `(` at index m
  have hsb : searchBack (u ++ v) 0 (m + 1 + j) = some m := by
    have hskip : searchBack (u ++ v) 0 (m + 1 + j) = searchBack (u ++ v) 0 m := by
      apply searchBack_skip
      intro k hk
      have hkc : k < cs.length := by omega
      have h1 : (u ++ v)[m + 1 + k]? = v[1 + k]? := by
        rw [show m + 1 + k = m + (1 + k) from by omega]; exact hget (1 + k)
      have h2 : v[1 + k]? = (cs ++ (')' :: w))[k]? := by
        rw [hv, show 1 + k = k + 1 from by omega]; exact List.getElem?_cons_succ
      have h3 : (cs ++ (')' :: w))[k]? = cs[k]? := by
        rw [List.getElem?_append, if_pos hkc]
      rcases hx : cs[k]? with _ | ch
      · exact absurd (List.getElem?_eq_getElem hkc) (by rw [hx]; exact fun hz => by cases hz)
      · have hmem : ch ∈ cs := List.mem_iff_getElem?.mpr ⟨k, hx⟩
        exact ⟨ch, by rw [h1, h2, h3]; exact hx, (hc ch hmem).1, (hc ch hmem).2⟩
    rw [hskip]
    apply searchBack_at_open
    have h0 : (u ++ v)[m + 0]? = v[0]? := hget 0
    rw [show m + 0 = m from by omega] at h0
    rw [h0, hv]
    exact List.getElem?_cons_zero
  -- the forward scan from index m crosses `(`, skips `cs`, and closes at the
  -- inner `)`
  have hsf : searchForward (u ++ v) 0 m = some (m + 1 + cs.length + 1) := by
    unfold searchForward
    rw [hdrop, hv]
    have step1 : searchForwardAux ('(' :: (cs ++ (')' :: w))) 0 m
        = searchForwardAux (cs ++ (')' :: w)) 1 (m + 1) := by
      simp [searchForwardAux]
    have step2 := searchForwardAux_skip cs hc (')' :: w) 1 (m + 1)
    have step3 : searchForwardAux (')' :: w) 1 (m + 1 + cs.length)
        = some (m + 1 + cs.length + 1) := by
      simp [searchForwardAux]
    rw [step1, step2, step3]
  -- assemble
  simp only [findCodeBlock, hsb, hsf]
  rw [if_pos (by omega : m < m + 1 + cs.length + 1)]
  congr 1
  unfold slice
  rw [hdrop, hv]
  rw [show m + 1 + cs.length + 1 - m = 1 + (cs.length + 1) from by omega]
  rw [show (1 : Nat) + (cs.length + 1) = (cs.length + 1) + 1 from by omega]
  rw [List.take_succ_cons]
  rw [show cs.length + 1 = cs.length + 1 from rfl]
  rw [List.take_append]
  simp

/-- Witness for the amended C2 on `x(y(zz)w)v` with the cursor between the
two `z`s: the innermost pair `(zz)` is returned. -/
theorem findCodeBlock_nested_innermost_witness :
    findCodeBlock
        ("x".toList ++ ('(' :: ("y".toList ++ ('(' :: ("zz".toList ++ (')' ::
          ("w".toList ++ (')' :: "v".toList))))))))
        ("x".toList.length + 1 + "y".toList.length + 1 + 1) "q"
      = String.mk ('(' :: ("zz".toList ++ [')'])) :=
  findCodeBlock_nested_innermost "x".toList "y".toList "zz".toList "w".toList "v".toList
    1 "q" (by decide) (by decide)

/--
Claim C3, counterexample: with no enclosing parenthesis pair, the Block
Locator does **not** return the raw line text: on the line `"  play  "`
(cursor at offset 3) it returns the trimmed `"play"`.
-/
theorem findCodeBlock_line_counterexample :
    findCodeBlock ("  play  ".toList) 3 "  play  " = "play" ∧
    "play" ≠ "  play  " := by
  exact ⟨rfl, by decide⟩

/--
Claim C3, amended: when no enclosing parenthesis pair is found (the
backward scan fails, or it succeeds but the forward scan finds no matching
close), `findCodeBlock` returns the **trimmed** text of the line containing
the cursor (`line.text.trim()`); the raw line is used only by
`executeBlockCommand`'s falsy fallback when that trimmed text is empty.
-/
theorem findCodeBlock_no_block_trimmed_line (text : List Char) (offset : Nat)
    (lineText : String) :
    (searchBack text 0 offset = none →
        findCodeBlock text offset lineText = jsTrim lineText) ∧
    (∀ st, searchBack text 0 offset = some st → searchForward text 0 st = none →
        findCodeBlock text offset lineText = jsTrim lineText) := by
  constructor
  · intro h; simp [findCodeBlock, h]
  · intro st h1 h2; simp [findCodeBlock, h1, h2]

/-- Witness for the amended C3: `"  play  "` with no parentheses yields the
trimmed line, and `")(" `with an unclosed `(` at the cursor likewise falls
back to the trimmed line. -/
theorem findCodeBlock_no_block_trimmed_line_witness :
    findCodeBlock ("  play  ".toList) 3 "  play  " = jsTrim "  play  " ∧
    findCodeBlock (")(".toList) 1 " ln " = jsTrim " ln " := by
  constructor
  · exact (findCodeBlock_no_block_trimmed_line ("  play  ".toList) 3 "  play  ").1
      (by decide)
  · exact (findCodeBlock_no_block_trimmed_line (")(".toList) 1 " ln ").2 1
      (by decide) (by decide)

/--
Claim C7: for every document state with an active, non-empty selection, the
fragment chosen for execution is exactly the selected text, byte-for-byte,
with no modification by the Block Locator.
-/
theorem chooseFragment_selection (selText : String) (text : List Char) (offset : Nat)
    (lineText : String) :
    chooseFragment true selText text offset lineText = selText := rfl

/-! ## Interpreter Supervisor theorems -/

/--
Claim C1, counterexample: `executeCode("")` in state Stopped **does** spawn
an interpreter process — `executeCode` calls `startSclang()` before any
emptiness check (the check lives in `sendCode`, which only runs later, when
the warm-up timer fires).
-/
theorem executeCode_empty_spawns_counterexample :
    (executeCode linuxEnv "" initState).spawnCount = 1 ∧
    initState.spawnCount = 0 := ⟨rfl, rfl⟩

/-- `sendCode` on a fragment whose trimmed text is empty never appends a
dispatch-echo line and never writes to the interpreter's input stream,
whatever the state (at worst it surfaces a not-running notification). -/
theorem sendCode_empty_no_output (code : String) (s : SCState) (h : jsTrim code = "") :
    (sendCode code s).postWindow = s.postWindow ∧
    (sendCode code s).stdinWrites = s.stdinWrites := by
  rcases hsp : s.sclangProcess with _ | p
  · simp [sendCode, hsp]
  · cases hstdin : p.stdin with
    | false => simp [sendCode, hsp, hstdin]
    | true => simp [sendCode, hsp, hstdin, h]

/--
Claim C1, amended: for every fragment whose trimmed text is empty, no
dispatch-echo line is ever written and nothing is ever written to the
interpreter's input stream; when a live process with a live input stream
exists, `executeCode` is a complete no-op — but when the session is
Stopped, `executeCode` still spawns an interpreter process and schedules
the one-second warm-up send `(1000, code)`, which is dropped when it
fires: firing that timer also writes no echo line and nothing to stdin.
-/
theorem executeCode_empty_no_echo_no_send (env : Env) (code : String) (s : SCState)
    (h : jsTrim code = "") :
    (executeCode env code s).postWindow = s.postWindow ∧
    (executeCode env code s).stdinWrites = s.stdinWrites ∧
    (∀ p, s.sclangProcess = some p → p.killed = false → p.stdin = true →
      executeCode env code s = s) ∧
    (liveHandle s = false → env.spawnThrows = false →
      (executeCode env code s).spawnCount = s.spawnCount + 1 ∧
      (executeCode env code s).pendingTimers = s.pendingTimers ++ [(1000, code)]) ∧
    (∀ (d : Nat) (rest : List (Nat × String)) (s2 : SCState),
      s2.pendingTimers = (d, code) :: rest →
      (fireTimer s2).postWindow = s2.postWindow ∧
      (fireTimer s2).stdinWrites = s2.stdinWrites) := by
  have hfire : ∀ (d : Nat) (rest : List (Nat × String)) (s2 : SCState),
      s2.pendingTimers = (d, code) :: rest →
      (fireTimer s2).postWindow = s2.postWindow ∧
      (fireTimer s2).stdinWrites = s2.stdinWrites := by
    intro d rest s2 ht
    have hft : fireTimer s2 = sendCode code { s2 with pendingTimers := rest } := by
      simp only [fireTimer, ht]
    rw [hft]
    simpa using sendCode_empty_no_output code { s2 with pendingTimers := rest } h
  cases hlive : liveHandle s with
  | true =>
    have hsend : executeCode env code s = sendCode code s := by
      simp [executeCode, hlive]
    refine ⟨by rw [hsend]; exact (sendCode_empty_no_output code s h).1,
      by rw [hsend]; exact (sendCode_empty_no_output code s h).2, ?_, ?_, hfire⟩
    · intro p hp _ hps
      rw [hsend]
      simp [sendCode, hp, hps, h]
    · intro hl; exact absurd hl (by simp [hlive])
  | false =>
    cases hthrow : env.spawnThrows with
    | true =>
      refine ⟨?_, ?_, ?_, ?_, hfire⟩
      · simp [executeCode, hlive, startSclang, hthrow, appendLog]
      · simp [executeCode, hlive, startSclang, hthrow, appendLog]
      · intro q hq hqk _
        exfalso
        simp [liveHandle, hq, hqk] at hlive
      · intro _ ht; exact absurd ht (by simp [hthrow])
    | false =>
      refine ⟨?_, ?_, ?_, ?_, hfire⟩
      · simp [executeCode, hlive, startSclang, hthrow, appendLog, spawnProc]
      · simp [executeCode, hlive, startSclang, hthrow, appendLog, spawnProc]
      · intro q hq hqk _
        exfalso
        simp [liveHandle, hq, hqk] at hlive
      · intro _ _
        constructor
        · simp [executeCode, hlive, startSclang, hthrow, appendLog, spawnProc]
        · simp [executeCode, hlive, startSclang, hthrow, appendLog, spawnProc]

/-- Witness for the amended C1: a whitespace-only fragment against a live
process changes nothing at all; from the initial (Stopped) state the post
window and stdin stay untouched while a spawn still happens and the
`(1000, code)` send is scheduled; and firing that pending send writes no
echo line and nothing to stdin. -/
theorem executeCode_empty_no_echo_no_send_witness :
    executeCode linuxEnv "   " runningState = runningState ∧
    (executeCode linuxEnv "   " initState).postWindow = initState.postWindow ∧
    (executeCode linuxEnv "   " initState).stdinWrites = initState.stdinWrites ∧
    (executeCode linuxEnv "   " initState).spawnCount = initState.spawnCount + 1 ∧
    (executeCode linuxEnv "   " initState).pendingTimers
      = initState.pendingTimers ++ [(1000, "   ")] ∧
    (fireTimer (executeCode linuxEnv "   " initState)).postWindow
      = (executeCode linuxEnv "   " initState).postWindow ∧
    (fireTimer (executeCode linuxEnv "   " initState)).stdinWrites
      = (executeCode linuxEnv "   " initState).stdinWrites := by
  have h1 := executeCode_empty_no_echo_no_send linuxEnv "   " runningState (by decide)
  have h2 := executeCode_empty_no_echo_no_send linuxEnv "   " initState (by decide)
  exact ⟨h1.2.2.1 runningProc rfl rfl rfl, h2.1, h2.2.1,
    (h2.2.2.2.1 rfl rfl).1, (h2.2.2.2.1 rfl rfl).2,
    (h2.2.2.2.2 1000 [] (executeCode linuxEnv "   " initState) rfl).1,
    (h2.2.2.2.2 1000 [] (executeCode linuxEnv "   " initState) rfl).2⟩

/--
Claim C4, counterexample: the fallback re-spawn with `sclang.exe` is
attempted even when the spawn error does **not** indicate that the
executable could not be found — the error observer checks only the path,
the fallback flag and the platform, never the error kind.  Here a
permission-denied error still triggers the fallback spawn.
-/
theorem onError_ignores_error_kind_counterexample :
    (onError linuxEnv true "sclang" "EACCES: permission denied" initState).spawnCount
      = initState.spawnCount + 1 ∧
    (onError linuxEnv true "sclang" "EACCES: permission denied" initState).sclangProcess
      = some { path := "sclang.exe", killed := false, stdin := true } := ⟨rfl, rfl⟩

/--
Claim C4, amended: a fallback re-spawn with `sclang.exe` is attempted
exactly once, and only when the failed path is the literal `sclang`,
fallback is allowed, and the platform is Linux or Windows — regardless of
the kind of spawn error; no further retry occurs even if the fallback spawn
also fails (its path `sclang.exe` never re-triggers the fallback), in which
case the error is surfaced and the handle is cleared.
-/
theorem onError_fallback_exactly_once (env : Env) (fb : Bool) (path msg : String)
    (s : SCState) :
    (path = "sclang" → fb = true → (env.platform = "linux" ∨ env.platform = "win32") →
      (onError env fb path msg s).spawnCount = s.spawnCount + 1 ∧
      (onError env fb path msg s).sclangProcess
        = some { path := "sclang.exe", killed := false, stdin := true }) ∧
    (¬(path = "sclang" ∧ fb = true ∧
        (env.platform = "linux" ∨ env.platform = "win32")) →
      (onError env fb path msg s).spawnCount = s.spawnCount ∧
      (onError env fb path msg s).sclangProcess = none ∧
      (onError env fb path msg s).errorMessages = s.errorMessages ++
        ["Failed to start sclang (" ++ path ++ "): " ++ msg
          ++ ". Check supercollider.sclangPath setting."]) := by
  constructor
  · intro h1 h2 h3
    have hcond : path = "sclang" ∧ fb = true ∧
        (env.platform = "linux" ∨ env.platform = "win32") := ⟨h1, h2, h3⟩
    constructor
    · simp [onError, if_pos hcond, spawnProc, appendLog]
    · simp [onError, if_pos hcond, spawnProc, appendLog]
  · intro hcond
    refine ⟨?_, ?_, ?_⟩ <;> simp [onError, if_neg hcond, appendLog]

/-- Witness for the amended C4: a not-found failure of `sclang` on Linux
triggers the one fallback spawn; a failure of `sclang.exe` itself spawns
nothing and clears the handle; and no fallback is spawned when fallback is
disallowed or on a macOS (non-linux, non-win32) host. -/
theorem onError_fallback_exactly_once_witness :
    (onError linuxEnv true "sclang" "spawn sclang ENOENT" initState).spawnCount
      = initState.spawnCount + 1 ∧
    (onError linuxEnv true "sclang.exe" "spawn sclang.exe ENOENT" initState).spawnCount
      = initState.spawnCount ∧
    (onError linuxEnv true "sclang.exe" "spawn sclang.exe ENOENT" initState).sclangProcess
      = none ∧
    (onError linuxEnv false "sclang" "spawn sclang ENOENT" initState).spawnCount
      = initState.spawnCount ∧
    (onError linuxEnv false "sclang" "spawn sclang ENOENT" initState).sclangProcess
      = none ∧
    (onError darwinEnv true "sclang" "spawn sclang ENOENT" initState).spawnCount
      = initState.spawnCount ∧
    (onError darwinEnv true "sclang" "spawn sclang ENOENT" initState).sclangProcess
      = none := by
  have h1 := (onError_fallback_exactly_once linuxEnv true "sclang"
    "spawn sclang ENOENT" initState).1 rfl rfl (Or.inl rfl)
  have h2 := (onError_fallback_exactly_once linuxEnv true "sclang.exe"
    "spawn sclang.exe ENOENT" initState).2 (by decide)
  have h3 := (onError_fallback_exactly_once linuxEnv false "sclang"
    "spawn sclang ENOENT" initState).2 (by decide)
  have h4 := (onError_fallback_exactly_once darwinEnv true "sclang"
    "spawn sclang ENOENT" initState).2 (by decide)
  exact ⟨h1.1, h2.1, h2.2.1, h3.1, h3.2.1, h4.1, h4.2.1⟩

/--
Claim C5: for every fragment that is non-empty after trimming and a live
input stream, the payload written to the interpreter's input stream is
exactly the trimmed fragment text immediately followed by the single byte
`0x1B` (ESC), with no trailing newline; `bootServer` hands the exact
literal `s.boot;` plus the ESC byte to the send path.
-/
theorem sendCode_wire_format (env : Env) (code : String) (s : SCState) (p : Proc)
    (hp : s.sclangProcess = some p) (hstdin : p.stdin = true) (hkill : p.killed = false)
    (hne : jsTrim code ≠ "") :
    (sendCode code s).stdinWrites = s.stdinWrites ++ [jsTrim code ++ escStr] ∧
    (jsTrim code ++ escStr).data = (jsTrim code).data ++ [Char.ofNat 27] ∧
    (bootServer env s).stdinWrites = s.stdinWrites ++ ["s.boot;" ++ escStr] := by
  refine ⟨?_, ?_, ?_⟩
  · simp [sendCode, hp, hstdin, hne]
  · rw [String.data_append]
    have : escStr.data = [Char.ofNat 27] := by decide
    rw [this]
  · have hlv : liveHandle s = true := by simp [liveHandle, hp, hkill]
    have hb : jsTrim "s.boot;" = "s.boot;" := by decide
    have hbne : ("s.boot;" : String) ≠ "" := by decide
    simp [bootServer, executeCode, hlv, sendCode, hp, hstdin, hb, hbne]

/-- Witness for C5 against a live default process. -/
theorem sendCode_wire_format_witness :
    (sendCode "1.postln;" runningState).stdinWrites
      = runningState.stdinWrites ++ [jsTrim "1.postln;" ++ escStr] ∧
    (jsTrim "1.postln;" ++ escStr).data = (jsTrim "1.postln;").data ++ [Char.ofNat 27] ∧
    (bootServer linuxEnv runningState).stdinWrites
      = runningState.stdinWrites ++ ["s.boot;" ++ escStr] :=
  sendCode_wire_format linuxEnv "1.postln;" runningState runningProc rfl rfl rfl
    (by decide)

/--
Claim C6: at most one live process handle exists at any time — a start
request while a live (non-killed) handle exists only appends a log line and
reports success, without spawning a second process and without touching the
handle; and the exit observer always clears the handle.
-/
theorem startSclang_when_running_noop (env : Env) (fb : Bool) (s : SCState)
    (h : liveHandle s = true) :
    (startSclang env fb s).1 = true ∧
    (startSclang env fb s).2 = appendLog s "[SuperCollider] sclang already running" ∧
    (startSclang env fb s).2.spawnCount = s.spawnCount ∧
    (startSclang env fb s).2.sclangProcess = s.sclangProcess ∧
    (∀ (c : Int) (s2 : SCState), (onExit c s2).sclangProcess = none) := by
  refine ⟨?_, ?_, ?_, ?_, ?_⟩ <;> simp [startSclang, h, appendLog, onExit]

/-- Witness for C6: starting while the default process is live spawns
nothing, and an exit event clears the handle. -/
theorem startSclang_when_running_noop_witness :
    (startSclang linuxEnv true runningState).1 = true ∧
    (startSclang linuxEnv true runningState).2.spawnCount = runningState.spawnCount ∧
    (startSclang linuxEnv true runningState).2.sclangProcess
      = runningState.sclangProcess ∧
    (onExit 0 runningState).sclangProcess = none := by
  have h := startSclang_when_running_noop linuxEnv true runningState rfl
  exact ⟨h.1, h.2.2.1, h.2.2.2.1, h.2.2.2.2 0 runningState⟩

/--
Claim C8: calling `stopSclang` when no live handle exists is a no-op: no
termination signal is sent, nothing is logged, and all state is left
unchanged.
-/
theorem stopSclang_stopped_noop (s : SCState) (h : liveHandle s = false) :
    stopSclang s = s := by
  rcases hsp : s.sclangProcess with _ | p
  · simp [stopSclang, hsp]
  · have hk : p.killed = true := by
      simp [liveHandle, hsp] at h
      exact h
    simp [stopSclang, hsp, hk]

/-- Witness for C8 at the initial (Stopped) state. -/
theorem stopSclang_stopped_noop_witness : stopSclang initState = initState :=
  stopSclang_stopped_noop initState rfl

/--
Claim C9: `executeCode` in state Stopped schedules a send after the
one-second warm-up delay, and `stopSclang` does not cancel it — pending
timers survive every `stopSclang`, and when the timer then fires, the
scheduled `sendCode` still runs.
-/
theorem stop_does_not_cancel_pending_send (env : Env) (code : String) (s : SCState)
    (hlive : liveHandle s = false) (hthrow : env.spawnThrows = false)
    (htimers : s.pendingTimers = []) :
    (∀ s2 : SCState, (stopSclang s2).pendingTimers = s2.pendingTimers) ∧
    (stopSclang (executeCode env code s)).pendingTimers = [(1000, code)] ∧
    fireTimer (stopSclang (executeCode env code s)) =
      sendCode code
        { stopSclang (executeCode env code s) with pendingTimers := [] } := by
  have hstop : ∀ s2 : SCState, (stopSclang s2).pendingTimers = s2.pendingTimers := by
    intro s2
    rcases hsp : s2.sclangProcess with _ | p
    · simp [stopSclang, hsp]
    · by_cases hk : p.killed
      · simp [stopSclang, hsp, hk]
      · simp [stopSclang, hsp, hk, appendLog]
  have hexec : (executeCode env code s).pendingTimers = [(1000, code)] := by
    simp [executeCode, hlive, startSclang, hthrow, appendLog, spawnProc, htimers]
  have h2 : (stopSclang (executeCode env code s)).pendingTimers = [(1000, code)] := by
    rw [hstop, hexec]
  refine ⟨hstop, h2, ?_⟩
  simp only [fireTimer, h2]

/-- Witness for C9: execute-from-Stopped then stop leaves the warm-up send
scheduled, and firing it runs the send routine. -/
theorem stop_does_not_cancel_pending_send_witness :
    (stopSclang (executeCode linuxEnv "1.postln;" initState)).pendingTimers
      = [(1000, "1.postln;")] ∧
    fireTimer (stopSclang (executeCode linuxEnv "1.postln;" initState)) =
      sendCode "1.postln;"
        { stopSclang (executeCode linuxEnv "1.postln;" initState) with
            pendingTimers := [] } := by
  have h := stop_does_not_cancel_pending_send linuxEnv "1.postln;" initState rfl rfl rfl
  exact ⟨h.2.1, h.2.2⟩

end SCVSCode
